import Mathlib

/-!
Verification of the Preflight repository (PrintPerfect AI).

The repository is a TypeScript client around a remote model service:
`src/services/geminiService.ts` holds the request/response adapters
(`analyzePdf`, `generateImage`, `editImage`), `src/components` holds the
upload gate (`validateAndUpload` in the `FileUpload` component), the
generator and editor surfaces, and the report dashboard
(`checksByStatus`, `getZoneStyles`, `renderCheckItem`).

This file shallowly embeds those functions and proves or refutes the
frozen claims about them.  Remote replies are modelled at the point the
client observes them (the reply text of the analysis call, the parts
list of the first candidate of an image call); machine behaviour beyond
that boundary is not modelled.
-/

namespace Preflight

/-! ## Data model (src/unnamed/part_000, the types module) -/

/-- CheckStatus enum from the types module. -/
inductive CheckStatus where
  | PASS
  | WARN
  | FAIL
deriving DecidableEq, Repr

/-- Category enum from the types module. -/
inductive Category where
  | LAYOUT
  | TYPOGRAPHY
  | IMAGERY
  | CONTENT
  | COLOR
deriving DecidableEq, Repr

/-- CheckItem from the types module.  `location` and `visualZone` are
optional; `visualZone` is kept as a raw string so that unrecognized
values (which `getZoneStyles` must handle) are representable. -/
structure CheckItem where
  category : Category
  status : CheckStatus
  title : String
  description : String
  location : Option String
  visualZone : Option String
deriving DecidableEq, Repr

/-- DocumentSpecs from the types module. -/
structure DocumentSpecs where
  pageCount : Int
  detectedDimensions : String
  colorProfileEstimate : String
  hasCropMarks : Bool
deriving DecidableEq, Repr

/-- PreflightReport from the types module.  `finalVerdict` is one of
three string values in the source union type; kept as a string. -/
structure PreflightReport where
  overallScore : Int
  summary : String
  finalVerdict : String
  checks : List CheckItem
  specs : DocumentSpecs
deriving DecidableEq, Repr

/-! ## JSON values

The analysis adapter returns `JSON.parse(text) as PreflightReport`: a
raw parsed JSON value cast without inspection.  A small JSON value type
makes payloads with missing or extra fields representable. -/

/-- A parsed JSON value. -/
inductive Json where
  | null
  | bool (b : Bool)
  | num (n : Int)
  | str (s : String)
  | arr (elems : List Json)
  | obj (fields : List (String × Json))
deriving BEq, Repr

/-- Field lookup on a JSON object; `none` on non-objects and missing keys. -/
def Json.getField : Json → String → Option Json
  | .obj fields, key => fields.lookup key
  | _, _ => none

/-! ## The analysis adapter (src/services/geminiService.ts, analyzePdf)

`analyzePdf` awaits the remote call inside a try block, throws when the
reply text is absent, parses the text and returns the parsed value cast
to `PreflightReport` with no field validation; its catch block replaces
every failure with one fixed user-facing message.  The reply is
modelled at the point the client observes it: the call threw, the reply
text was absent, the text failed `JSON.parse`, or it parsed to a JSON
value. -/

/-- What the awaited analysis call yields, as the client observes it. -/
inductive AnalyzeReply where
  | transportFailure
  | noText
  | badJson
  | json (j : Json)

/-- The single message thrown by the catch block of `analyzePdf`. -/
def analyzeErrorMessage : String := "Failed to analyze the PDF. Please try again."

/-- Shallow embedding of `analyzePdf` (response handling): absent text
throws, unparseable text throws, and every failure is converted by the
catch block to `analyzeErrorMessage`; a parsed JSON value is returned
as the report with no validation of its fields. -/
def analyzePdf : AnalyzeReply → Except String Json
  | .transportFailure => .error analyzeErrorMessage
  | .noText => .error analyzeErrorMessage
  | .badJson => .error analyzeErrorMessage
  | .json j => .ok j

/-- The required top-level report fields listed in the response schema
(`reportSchema.required` in geminiService.ts) and in the spec. -/
def requiredTopFields : List String :=
  ["overallScore", "summary", "finalVerdict", "specs", "checks"]

/-- Whether a JSON payload has every required top-level field. -/
def hasRequiredFields (j : Json) : Bool :=
  requiredTopFields.all fun key => (j.getField key).isSome

/-! ## The zone mapper (ReportDashboard, getZoneStyles)

`getZoneStyles` switches on the zone name and returns a CSS class
string placing an absolutely positioned rectangle on the page preview;
the default branch returns the class `hidden` (no rectangle).  The
positioning classes are read as the rectangle they denote, with offsets
and sizes measured in units of one third of the page so that every
value is an exact integer: `w-1/3` and `h-1/3` become width and height
1, `left-1/3` and `top-1/3` become offset 1, `right-0` becomes a left
offset of 2 (one cell width from the right edge), `bottom-0` a top
offset of 2, and `inset-0` the rectangle from the origin with width and
height 3.  The page is the square from (0,0) to (3,3) in these units,
with origin at the top-left. -/

/-- An overlay rectangle, in units of one third of the page side. -/
structure Rect where
  x : Int
  y : Int
  w : Int
  h : Int
deriving DecidableEq, Repr

/-- Shallow embedding of `getZoneStyles`: zone name to the rectangle
denoted by the returned positioning classes, `none` for the default
branch whose class hides the overlay. -/
def getZoneStyles : String → Option Rect
  | "TOP_LEFT" => some ⟨0, 0, 1, 1⟩
  | "TOP_CENTER" => some ⟨1, 0, 1, 1⟩
  | "TOP_RIGHT" => some ⟨2, 0, 1, 1⟩
  | "MIDDLE_LEFT" => some ⟨0, 1, 1, 1⟩
  | "CENTER" => some ⟨1, 1, 1, 1⟩
  | "MIDDLE_RIGHT" => some ⟨2, 1, 1, 1⟩
  | "BOTTOM_LEFT" => some ⟨0, 2, 1, 1⟩
  | "BOTTOM_CENTER" => some ⟨1, 2, 1, 1⟩
  | "BOTTOM_RIGHT" => some ⟨2, 2, 1, 1⟩
  | "FULL_PAGE" => some ⟨0, 0, 3, 3⟩
  | _ => none

/-- The nine grid zones of the visualZone union type. -/
def nineZones : List String :=
  ["TOP_LEFT", "TOP_CENTER", "TOP_RIGHT", "MIDDLE_LEFT", "CENTER",
   "MIDDLE_RIGHT", "BOTTOM_LEFT", "BOTTOM_CENTER", "BOTTOM_RIGHT"]

/-- The full ten-value visualZone enumeration. -/
def zoneEnum : List String := nineZones ++ ["FULL_PAGE"]

/-- The rectangle is inside the page square (0,0)-(3,3). -/
def Rect.containedInPage (r : Rect) : Prop :=
  0 ≤ r.x ∧ 0 ≤ r.y ∧ 0 < r.w ∧ 0 < r.h ∧ r.x + r.w ≤ 3 ∧ r.y + r.h ≤ 3

instance : DecidablePred Rect.containedInPage := fun r => by
  unfold Rect.containedInPage; infer_instance

/-- The interiors of the two rectangles do not meet: they are separated
along one of the axes, so they can share at most a boundary. -/
def Rect.interiorDisjoint (a b : Rect) : Prop :=
  a.x + a.w ≤ b.x ∨ b.x + b.w ≤ a.x ∨ a.y + a.h ≤ b.y ∨ b.y + b.h ≤ a.y

instance : ∀ a b, Decidable (Rect.interiorDisjoint a b) := fun a b => by
  unfold Rect.interiorDisjoint; infer_instance

/-- The cell of the 3 by 3 grid in column i and row j (origin top-left),
one third of the page wide and one third high. -/
def gridCell (i j : Fin 3) : Rect := ⟨(i : Int), (j : Int), 1, 1⟩

/-- In `renderCheckItem`, hovering a check sets the active zone to
`item.visualZone || 'FULL_PAGE'`.  The or-fallback substitutes
FULL_PAGE for every falsy value of `item.visualZone`: both an absent
zone and the empty string. -/
def activeZoneOnHover (visualZone : Option String) : String :=
  match visualZone with
  | none => "FULL_PAGE"
  | some z => if z.isEmpty then "FULL_PAGE" else z

/-- The overlay shown while a check is hovered: the zone styles of the
active zone set by `renderCheckItem`. -/
def overlayOnHover (visualZone : Option String) : Option Rect :=
  getZoneStyles (activeZoneOnHover visualZone)

/-! ## The image adapters (geminiService.ts, generateImage / editImage)

Both adapters read `response.candidates?.[0]?.content?.parts`, scan the
parts in order for the first one with an `inlineData` payload, and
return its data wrapped as a PNG data URI; when the parts list is
absent or holds no inline data they throw a no-result error, and their
catch blocks log and rethrow the caught error unchanged.  The reply is
modelled at the point the adapters observe it: the awaited call threw,
or it produced the (possibly absent) parts list of the first
candidate. -/

/-- An inline data payload of a reply part. -/
structure InlineData where
  mimeType : String
  data : String
deriving DecidableEq, Repr

/-- A part of a reply candidate: optional text, optional inline data. -/
structure Part where
  text : Option String
  inlineData : Option InlineData
deriving DecidableEq, Repr

/-- What the awaited image call yields, as the adapters observe it:
the thrown error, or `response.candidates?.[0]?.content?.parts`. -/
inductive ImageReply where
  | failure (err : String)
  | success (parts : Option (List Part))

/-- First inline-data payload of a parts list, in part order;
the `for part of parts` loop of both adapters. -/
def firstInline : List Part → Option InlineData
  | [] => none
  | p :: ps =>
    match p.inlineData with
    | some d => some d
    | none => firstInline ps

/-- The data URI header both adapters prepend to the returned bytes. -/
def pngHeader : String := "data:image/png;base64,"

/-- The no-result message thrown by `generateImage`. -/
def generateNoImageMessage : String := "No image generated in response."

/-- The no-result message thrown by `editImage`. -/
def editNoImageMessage : String := "No edited image generated in response."

/-- Shallow embedding of `generateImage` (response handling): scan the
first candidate's parts for inline data and return it as a PNG data
URI; throw the no-result message otherwise; the catch block rethrows
the caught error unchanged. -/
def generateImage : ImageReply → Except String String
  | .failure err => .error err
  | .success parts =>
    match firstInline (parts.getD []) with
    | some d => .ok (pngHeader ++ d.data)
    | none => .error generateNoImageMessage

/-- Shallow embedding of `editImage` (response handling).  The source
image bytes, its MIME type and the prompt shape only the request; the
response handling is that of `generateImage` with a different
no-result message, and the returned URI header is PNG regardless of
`srcMime` and of the inline data's own MIME type. -/
def editImage (srcMime : String) : ImageReply → Except String String
  | .failure err => .error err
  | .success parts =>
    match firstInline (parts.getD []) with
    | some d => .ok (pngHeader ++ d.data)
    | none => .error editNoImageMessage

/-! ## The upload gate (FileUpload component, validateAndUpload)

`validateAndUpload` rejects a non-PDF MIME type, then a size above
20 MB, setting a user-visible error message and returning without
calling `onFileSelect`; otherwise it calls `onFileSelect(file)`, which
is what triggers the network analysis call. -/

/-- The message shown for a non-PDF upload. -/
def uploadTypeMessage : String := "Please upload a PDF file."

/-- The message shown for an oversized upload. -/
def uploadSizeMessage : String := "File size exceeds 20MB limit."

/-- The size ceiling in bytes. -/
def uploadSizeLimit : Nat := 20 * 1024 * 1024

/-- Outcome of the upload gate: rejected locally with a message and
`onFileSelect` not called, or `onFileSelect` invoked with the file. -/
inductive UploadOutcome where
  | rejected (msg : String)
  | selected
deriving DecidableEq, Repr

/-- Shallow embedding of `validateAndUpload` over the file's MIME type
and byte size. -/
def validateAndUpload (mime : String) (size : Nat) : UploadOutcome :=
  if mime ≠ "application/pdf" then .rejected uploadTypeMessage
  else if size > uploadSizeLimit then .rejected uploadSizeMessage
  else .selected

/-! ## Dashboard grouping (ReportDashboard, checksByStatus)

`checksByStatus` filters `report.checks` once per status; the sidebar
renders the FAIL group, then WARN, then PASS, each in filtered order. -/

/-- Shallow embedding of `checksByStatus`: the group of a status is the
filter of the report's checks on that status. -/
def checksByStatus (report : PreflightReport) (s : CheckStatus) : List CheckItem :=
  report.checks.filter fun c => c.status = s

/-! ## Surface state machines (App, ImageGenerator, ImageEditor)

Each UI surface is embedded as a state record with the React state
fields the call lifecycle touches, a step function over user and
completion events, and a flag telling whether the step started a
remote call.  A trigger click starts a call only when the trigger is
both rendered and enabled in the current state, exactly as the JSX
conditions say; a completion event delivers the result of the
outstanding call.  Traces are run together with a counter of
outstanding remote calls: a start increments it, a completion
decrements it. -/

/-- ImageGenerator state: `isGenerating`, `prompt`, `generatedImage`,
`error`. -/
structure GenState where
  isGenerating : Bool
  prompt : String
  generatedImage : Option String
  error : Option String
deriving Repr

/-- Initial ImageGenerator state. -/
def genInit : GenState := ⟨false, "", none, none⟩

/-- The generate button is enabled: it is disabled while
`isGenerating || !prompt.trim()`. -/
def generateEnabled (s : GenState) : Bool :=
  !s.isGenerating && !(s.prompt.trim.isEmpty)

/-- ImageGenerator events: editing the prompt, clicking Generate, and
the completion of the awaited `generateImage` call. -/
inductive GenEvent where
  | setPrompt (p : String)
  | clickGenerate
  | complete (result : Except String String)

/-- One ImageGenerator step; the flag is true when the step started a
remote call.  `handleGenerate` returns at once on a blank prompt and
otherwise sets `isGenerating`, clears error and image, and awaits the
call; the finally block clears `isGenerating` and the catch stores the
error message. -/
def genStep (s : GenState) : GenEvent → GenState × Bool
  | .setPrompt p => ({ s with prompt := p }, false)
  | .clickGenerate =>
    if generateEnabled s then
      ({ s with isGenerating := true, error := none, generatedImage := none }, true)
    else (s, false)
  | .complete (.ok img) =>
    ({ s with isGenerating := false, generatedImage := some img }, false)
  | .complete (.error e) =>
    ({ s with isGenerating := false, error := some e }, false)

/-- ImageEditor state: `originalFile` (the selected image, by its MIME
type), `isProcessing`, `prompt`, `editedImage`, `error`. -/
structure EditState where
  originalFile : Option String
  isProcessing : Bool
  prompt : String
  editedImage : Option String
  error : Option String
deriving Repr

/-- Initial ImageEditor state. -/
def editInit : EditState := ⟨none, false, "", none, none⟩

/-- The Apply Edit button is rendered only when a file is selected and
is disabled while `isProcessing || !prompt.trim()`; `handleEdit` also
returns at once when `!originalFile || !prompt.trim()`. -/
def editEnabled (s : EditState) : Bool :=
  s.originalFile.isSome && !s.isProcessing && !(s.prompt.trim.isEmpty)

/-- ImageEditor events: selecting a source image (with its MIME type),
editing the prompt, clicking Apply Edit, the Reset button, and the
completion of the awaited `editImage` call. -/
inductive EditEvent where
  | selectImage (mime : String)
  | setPrompt (p : String)
  | clickEdit
  | reset
  | complete (result : Except String String)

/-- The editor's file filter: `file.type.startsWith('image/')`.
Kept irreducible so that proofs treat the string test as opaque. -/
@[irreducible] def isImageMime (mime : String) : Bool := mime.startsWith "image/"

/-- One ImageEditor step.  `handleFileSelect` accepts only files whose
type starts with `image/`; `reset` clears file, prompt, image and
error but not `isProcessing`; the completion mirrors `handleEdit`'s
try/catch/finally. -/
def editStep (s : EditState) : EditEvent → EditState × Bool
  | .selectImage mime =>
    if isImageMime mime then
      ({ s with originalFile := some mime, editedImage := none, error := none }, false)
    else ({ s with error := some "Please upload an image file (PNG, JPG)." }, false)
  | .setPrompt p => ({ s with prompt := p }, false)
  | .clickEdit =>
    if editEnabled s then
      ({ s with isProcessing := true, error := none }, true)
    else (s, false)
  | .reset =>
    ({ s with originalFile := none, prompt := "", editedImage := none,
              error := none }, false)
  | .complete (.ok img) =>
    ({ s with isProcessing := false, editedImage := some img }, false)
  | .complete (.error e) =>
    ({ s with isProcessing := false, error := some e }, false)

/-- Preflight surface state in App: `file`, `isAnalyzing`, `report`,
`error`.  The file is represented by its validated identity. -/
structure AppState where
  file : Option String
  isAnalyzing : Bool
  report : Option Json
  error : Option String
deriving Repr

/-- Initial preflight state. -/
def appInit : AppState := ⟨none, false, none, none⟩

/-- The FileUpload surface is rendered only when `!file && !report`. -/
def uploadVisible (s : AppState) : Bool :=
  s.file.isNone && s.report.isNone

/-- The Try Again button is rendered only when
`error && !isAnalyzing && !report`; the dashboard's Back button only
when `report && file && !isAnalyzing`.  Either one calls
`handleReset`. -/
def resetVisible (s : AppState) : Bool :=
  (s.error.isSome && !s.isAnalyzing && s.report.isNone) ||
  (s.report.isSome && s.file.isSome && !s.isAnalyzing)

/-- Preflight events: a validated file passed to `handleFileSelect`,
the completion of the awaited `analyzePdf` call, and a reset. -/
inductive AppEvent where
  | selectFile (f : String)
  | analysisDone (result : Except String Json)
  | reset

/-- One preflight step.  `handleFileSelect` stores the file, sets
`isAnalyzing`, clears error and report, and awaits the call; on
success the report is stored, on failure the error message is stored
and the file cleared to allow retry; `handleReset` clears file, report
and error. -/
def appStep (s : AppState) : AppEvent → AppState × Bool
  | .selectFile f =>
    if uploadVisible s then
      ({ file := some f, isAnalyzing := true, report := none, error := none }, true)
    else (s, false)
  | .analysisDone (.ok r) =>
    ({ s with isAnalyzing := false, report := some r }, false)
  | .analysisDone (.error e) =>
    ({ s with isAnalyzing := false, file := none, error := some e }, false)
  | .reset =>
    if resetVisible s then
      ({ s with file := none, report := none, error := none }, false)
    else (s, false)

/-- Whether an event is a completion delivery rather than a user
action, for each surface. -/
def GenEvent.isCompletion : GenEvent → Bool
  | .complete _ => true
  | _ => false

def EditEvent.isCompletion : EditEvent → Bool
  | .complete _ => true
  | _ => false

def AppEvent.isCompletion : AppEvent → Bool
  | .analysisDone _ => true
  | _ => false

/-- Run one step while tracking the number of outstanding remote calls:
a completion event consumes one, a started call adds one. -/
def trackGen (sn : GenState × Nat) (e : GenEvent) : GenState × Nat :=
  ((genStep sn.1 e).1,
   (sn.2 - (if e.isCompletion then 1 else 0)) +
     (if (genStep sn.1 e).2 then 1 else 0))

def trackEdit (sn : EditState × Nat) (e : EditEvent) : EditState × Nat :=
  ((editStep sn.1 e).1,
   (sn.2 - (if e.isCompletion then 1 else 0)) +
     (if (editStep sn.1 e).2 then 1 else 0))

def trackApp (sn : AppState × Nat) (e : AppEvent) : AppState × Nat :=
  ((appStep sn.1 e).1,
   (sn.2 - (if e.isCompletion then 1 else 0)) +
     (if (appStep sn.1 e).2 then 1 else 0))

/-- Run an ImageGenerator event trace from the initial state. -/
def genRun (trace : List GenEvent) : GenState × Nat :=
  trace.foldl trackGen (genInit, 0)

/-- Run an ImageEditor event trace from the initial state. -/
def editRun (trace : List EditEvent) : EditState × Nat :=
  trace.foldl trackEdit (editInit, 0)

/-- Run a preflight event trace from the initial state. -/
def appRun (trace : List AppEvent) : AppState × Nat :=
  trace.foldl trackApp (appInit, 0)

/-! ## Spec-side schema predicate

The client performs no schema validation of its own, so the schema of
spec section 3 is stated here as a predicate on JSON payloads; it is
used only to state claims (the hypothesis of the round-trip claim and
the counterexample of the validation claim), never as a model of any
client code. -/

/-- The three finalVerdict values. -/
def finalVerdicts : List String := ["READY_FOR_PRINT", "NEEDS_REVIEW", "DO_NOT_PRINT"]

/-- The five check categories. -/
def categoryNames : List String := ["LAYOUT", "TYPOGRAPHY", "IMAGERY", "CONTENT", "COLOR"]

/-- The three check statuses. -/
def statusNames : List String := ["PASS", "WARN", "FAIL"]

/-- Spec section 3 shape of one checks entry: category and status from
their closed sets, non-empty title and description, location and
visualZone optional, the zone from the enumeration when present. -/
def validCheckJson (c : Json) : Bool :=
  (match c.getField "category" with
   | some (.str s) => categoryNames.contains s
   | _ => false) &&
  (match c.getField "status" with
   | some (.str s) => statusNames.contains s
   | _ => false) &&
  (match c.getField "title" with
   | some (.str t) => !t.isEmpty
   | _ => false) &&
  (match c.getField "description" with
   | some (.str d) => !d.isEmpty
   | _ => false) &&
  (match c.getField "location" with
   | none => true
   | some (.str _) => true
   | _ => false) &&
  (match c.getField "visualZone" with
   | none => true
   | some (.str z) => zoneEnum.contains z
   | _ => false)

/-- Spec section 3 shape of the specs object. -/
def validSpecsJson (sp : Json) : Bool :=
  (match sp.getField "pageCount" with
   | some (.num n) => decide (0 < n)
   | _ => false) &&
  (match sp.getField "detectedDimensions" with
   | some (.str _) => true
   | _ => false) &&
  (match sp.getField "colorProfileEstimate" with
   | some (.str _) => true
   | _ => false) &&
  (match sp.getField "hasCropMarks" with
   | some (.bool _) => true
   | _ => false)

/-- Spec section 3 shape of a full report payload. -/
def validReportJson (j : Json) : Bool :=
  (match j.getField "overallScore" with
   | some (.num n) => decide (0 ≤ n ∧ n ≤ 100)
   | _ => false) &&
  (match j.getField "summary" with
   | some (.str _) => true
   | _ => false) &&
  (match j.getField "finalVerdict" with
   | some (.str v) => finalVerdicts.contains v
   | _ => false) &&
  (match j.getField "specs" with
   | some sp => validSpecsJson sp
   | none => false) &&
  (match j.getField "checks" with
   | some (.arr cs) => cs.all validCheckJson
   | _ => false)

/-- A concrete payload satisfying the spec schema, the reply of
end-to-end scenario 1. -/
def sampleReportJson : Json :=
  .obj
    [("overallScore", .num 82),
     ("summary", .str "RGB imagery found."),
     ("finalVerdict", .str "NEEDS_REVIEW"),
     ("specs", .obj
        [("pageCount", .num 2),
         ("detectedDimensions", .str "8.5x11 in"),
         ("colorProfileEstimate", .str "RGB Detected"),
         ("hasCropMarks", .bool false)]),
     ("checks", .arr
        [.obj
           [("category", .str "COLOR"),
            ("status", .str "FAIL"),
            ("title", .str "RGB images detected"),
            ("description", .str "Images appear to be RGB."),
            ("visualZone", .str "CENTER")]])]

/-! ## Claims -/

/-- C1, counterexample.  The empty JSON object is missing every
required top-level field, yet `analyzePdf` returns it as the report:
no client-side validation failure occurs and a Report value is exposed
to the caller, refuting the claim that such replies fail with a
MalformedResponse error. -/
theorem analyzePdf_no_validation_cex :
    hasRequiredFields (Json.obj []) = false ∧
    analyzePdf (.json (.obj [])) = .ok (.obj []) :=
  ⟨rfl, rfl⟩

/-- C1, amended.  `analyzePdf` performs no field validation: a reply
whose JSON is missing any required top-level field is still returned
to the caller unchanged as the Report; only an absent or unparseable
reply text (or a thrown call) fails, and then with the single fixed
message rather than a schema error. -/
theorem analyzePdf_missing_fields_passthrough (j : Json)
    (h : hasRequiredFields j = false) :
    analyzePdf (.json j) = .ok j ∧
    analyzePdf .noText = .error analyzeErrorMessage ∧
    analyzePdf .badJson = .error analyzeErrorMessage := by
  exact ⟨rfl, rfl, rfl⟩

/-- C1, witness for the amended theorem at the empty object. -/
theorem analyzePdf_missing_fields_passthrough_w :
    analyzePdf (.json (.obj [])) = .ok (.obj []) ∧
    analyzePdf .noText = .error analyzeErrorMessage ∧
    analyzePdf .badJson = .error analyzeErrorMessage :=
  analyzePdf_missing_fields_passthrough (.obj []) rfl

/-- C2, counterexample.  For a check with absent `visualZone`, and
likewise for one whose `visualZone` is the empty string (a value
outside the ten-value enumeration), `renderCheckItem` activates the
FULL_PAGE fallback on hover (the or-fallback fires on every falsy
value) and the zone mapper then yields the full-page rectangle, so an
overlay is shown, refuting the claim that those checks produce no
overlay. -/
theorem absent_zone_overlay_cex :
    activeZoneOnHover none = "FULL_PAGE" ∧
    overlayOnHover none = some ⟨0, 0, 3, 3⟩ ∧
    activeZoneOnHover (some "") = "FULL_PAGE" ∧
    overlayOnHover (some "") = some ⟨0, 0, 3, 3⟩ :=
  ⟨rfl, rfl, rfl, rfl⟩

/-- C2, amended.  For every non-empty `visualZone` string outside the
ten-value enumeration the zone mapper returns no overlay; but a check
whose `visualZone` is absent, and likewise one whose `visualZone` is
the empty string (both falsy, so the or-fallback substitutes
FULL_PAGE on hover), shows the full-page overlay rather than none. -/
theorem zone_mapper_unrecognized_amended :
    (∀ z : String, z ∉ zoneEnum → getZoneStyles z = none) ∧
    (∀ z : String, z ≠ "" → overlayOnHover (some z) = getZoneStyles z) ∧
    overlayOnHover none = some ⟨0, 0, 3, 3⟩ ∧
    overlayOnHover (some "") = some ⟨0, 0, 3, 3⟩ := by
  refine ⟨?_, ?_, rfl, rfl⟩
  · intro z hz
    unfold getZoneStyles
    split
    all_goals simp_all [zoneEnum, nineZones]
  · intro z hz
    have hne : z.isEmpty = false := by
      cases he : z.isEmpty
      · rfl
      · exact absurd ((String.isEmpty_iff z).mp he) hz
    simp [overlayOnHover, activeZoneOnHover, hne]

/-- C2, witness for the amended theorem at a concrete unrecognized
non-empty zone string: its overlay on hover is the mapper's answer,
which is none. -/
theorem zone_mapper_unrecognized_amended_w :
    getZoneStyles "LOWER_THIRD" = none ∧
    overlayOnHover (some "LOWER_THIRD") = getZoneStyles "LOWER_THIRD" :=
  ⟨zone_mapper_unrecognized_amended.1 "LOWER_THIRD" (by decide),
   zone_mapper_unrecognized_amended.2.1 "LOWER_THIRD" (by decide)⟩

/-- Whether the zone's rectangle is contained in the page square. -/
def zoneRectOk (z : String) : Bool :=
  match getZoneStyles z with
  | some r => decide r.containedInPage
  | none => false

/-- Whether the two zones' rectangles have disjoint interiors
(vacuously true when either has no rectangle). -/
def zonePairDisjoint (z1 z2 : String) : Bool :=
  match getZoneStyles z1, getZoneStyles z2 with
  | some r1, some r2 => decide (r1.interiorDisjoint r2)
  | _, _ => true

/-- C3.  Every zone of the nine-zone enumeration maps to exactly one
cell of the 3 by 3 grid (origin top-left, each cell one third of the
page wide and high); every enumerated zone's rectangle, FULL_PAGE
included, is contained in the page area; FULL_PAGE maps to the whole
page; and the rectangles of two distinct non-FULL_PAGE zones meet at
most on grid boundaries. -/
theorem zone_mapper_grid :
    (∀ z ∈ nineZones, ∃ i j : Fin 3, getZoneStyles z = some (gridCell i j)) ∧
    (∀ z ∈ zoneEnum, zoneRectOk z = true) ∧
    getZoneStyles "FULL_PAGE" = some ⟨0, 0, 3, 3⟩ ∧
    (∀ z1 ∈ nineZones, ∀ z2 ∈ nineZones, z1 ≠ z2 →
      zonePairDisjoint z1 z2 = true) := by
  refine ⟨?_, ?_, rfl, ?_⟩ <;> decide

/-- C3, witness: the grid cell, containment and disjointness facts at
concrete zones. -/
theorem zone_mapper_grid_w :
    (∃ i j : Fin 3, getZoneStyles "TOP_LEFT" = some (gridCell i j)) ∧
    zoneRectOk "FULL_PAGE" = true ∧
    zonePairDisjoint "TOP_LEFT" "CENTER" = true :=
  ⟨zone_mapper_grid.1 "TOP_LEFT" (by decide),
   zone_mapper_grid.2.1 "FULL_PAGE" (by decide),
   zone_mapper_grid.2.2.2 "TOP_LEFT" (by decide) "CENTER" (by decide) (by decide)⟩

/-- C4.  The upload gate rejects every non-PDF MIME type and every
payload above the 20 MB ceiling locally with a user-visible message,
never invoking `onFileSelect` (so no network request is made), and
invokes `onFileSelect` for every PDF within the limit. -/
theorem upload_gate :
    (∀ (mime : String) (size : Nat), mime ≠ "application/pdf" →
      validateAndUpload mime size = .rejected uploadTypeMessage) ∧
    (∀ size : Nat, size > uploadSizeLimit →
      validateAndUpload "application/pdf" size = .rejected uploadSizeMessage) ∧
    (∀ size : Nat, size ≤ uploadSizeLimit →
      validateAndUpload "application/pdf" size = .selected) := by
  refine ⟨fun mime size h => ?_, fun size h => ?_, fun size h => ?_⟩
  · simp [validateAndUpload, h]
  · simp [validateAndUpload, h]
  · simp [validateAndUpload, Nat.not_lt.mpr h]

/-- C4, witness: a PNG upload and a 25 MB PDF are rejected, a 5 MB PDF
is accepted. -/
theorem upload_gate_w :
    validateAndUpload "image/png" (5 * 1024 * 1024) = .rejected uploadTypeMessage ∧
    validateAndUpload "application/pdf" (25 * 1024 * 1024) = .rejected uploadSizeMessage ∧
    validateAndUpload "application/pdf" (5 * 1024 * 1024) = .selected :=
  ⟨upload_gate.1 "image/png" (5 * 1024 * 1024) (by decide),
   upload_gate.2.1 (25 * 1024 * 1024) (by decide),
   upload_gate.2.2 (5 * 1024 * 1024) (by decide)⟩

/-- Helper: a parts list in which no part carries inline data has no
first inline payload. -/
theorem firstInline_eq_none {ps : List Part}
    (h : ∀ p ∈ ps, p.inlineData = none) : firstInline ps = none := by
  induction ps with
  | nil => rfl
  | cons p ps ih =>
    have hp := h p (List.mem_cons_self p ps)
    simp only [firstInline, hp]
    exact ih fun q hq => h q (List.mem_cons_of_mem p hq)

/-- Helper: a parts list in which some part carries inline data has a
first inline payload. -/
theorem firstInline_isSome {ps : List Part}
    (h : ∃ p ∈ ps, p.inlineData.isSome = true) :
    ∃ d, firstInline ps = some d := by
  induction ps with
  | nil => simp at h
  | cons p ps ih =>
    match hp : p.inlineData with
    | some d => exact ⟨d, by simp [firstInline, hp]⟩
    | none =>
      obtain ⟨q, hq, hqd⟩ := h
      rcases List.mem_cons.mp hq with hq1 | hq2
      · subst hq1; rw [hp] at hqd; simp at hqd
      · obtain ⟨d, hd⟩ := ih ⟨q, hq2, hqd⟩
        exact ⟨d, by simp [firstInline, hp, hd]⟩

/-- C5.  When no part of the reply carries inline image data (the
parts list being absent included), `generateImage` and `editImage`
fail with their no-result errors; when some part carries inline data,
both return the image bytes embedded in a data URI string. -/
theorem image_adapters_payload :
    (∀ parts : Option (List Part),
      (∀ p ∈ parts.getD [], p.inlineData = none) →
      generateImage (.success parts) = .error generateNoImageMessage ∧
      ∀ srcMime, editImage srcMime (.success parts) = .error editNoImageMessage) ∧
    (∀ parts : Option (List Part),
      (∃ p ∈ parts.getD [], p.inlineData.isSome = true) →
      ∃ d, firstInline (parts.getD []) = some d ∧
        generateImage (.success parts) = .ok (pngHeader ++ d.data) ∧
        ∀ srcMime, editImage srcMime (.success parts) = .ok (pngHeader ++ d.data)) := by
  constructor
  · intro parts h
    have hn := firstInline_eq_none h
    exact ⟨by simp [generateImage, hn], fun srcMime => by simp [editImage, hn]⟩
  · intro parts h
    obtain ⟨d, hd⟩ := firstInline_isSome h
    exact ⟨d, hd, by simp [generateImage, hd], fun srcMime => by simp [editImage, hd]⟩

/-- C5, witness: a reply whose only part is text yields the no-result
errors; a reply with an inline part yields the data URI. -/
theorem image_adapters_payload_w :
    (generateImage (.success (some [⟨some "hello", none⟩])) =
      .error generateNoImageMessage) ∧
    (editImage "image/png" (.success (some [⟨some "hello", none⟩])) =
      .error editNoImageMessage) ∧
    ∃ d, firstInline [⟨none, some ⟨"image/png", "QUJD"⟩⟩] = some d ∧
      generateImage (.success (some [⟨none, some ⟨"image/png", "QUJD"⟩⟩])) =
        .ok (pngHeader ++ d.data) := by
  have h1 := image_adapters_payload.1 (some [⟨some "hello", none⟩]) (by decide)
  have h2 := image_adapters_payload.2 (some [⟨none, some ⟨"image/png", "QUJD"⟩⟩])
    ⟨⟨none, some ⟨"image/png", "QUJD"⟩⟩, by decide, rfl⟩
  obtain ⟨d, hd, hg, _⟩ := h2
  exact ⟨h1.1, h1.2 "image/png", d, hd, hg⟩

/-- C6, counterexample.  A failure inside the `generateImage` remote
call is rethrown verbatim by its catch block rather than converted to
a fixed user-facing message, refuting the claim that every adapter
failure becomes a single fixed message. -/
theorem adapter_error_passthrough_cex :
    generateImage (.failure "network down") = .error "network down" ∧
    "network down" ≠ analyzeErrorMessage ∧
    editImage "image/png" (.failure "network down") = .error "network down" :=
  ⟨rfl, by decide, rfl⟩

/-- C6, amended.  `analyzePdf` catches every failure of the analysis
call and throws the single fixed user-facing message, and it is
all-or-nothing: it either returns the full parsed payload or that
fixed error, never a partial report; `generateImage` and `editImage`,
however, rethrow the underlying error unchanged from their catch
blocks. -/
theorem adapter_error_boundary :
    (∀ (r : AnalyzeReply) (msg : String),
      analyzePdf r = .error msg → msg = analyzeErrorMessage) ∧
    (∀ r : AnalyzeReply,
      (∃ j, analyzePdf r = .ok j) ∨ analyzePdf r = .error analyzeErrorMessage) ∧
    (∀ e, generateImage (.failure e) = .error e) ∧
    (∀ e srcMime, editImage srcMime (.failure e) = .error e) := by
  refine ⟨?_, ?_, fun e => rfl, fun e srcMime => rfl⟩
  · intro r msg h
    cases r <;> simp [analyzePdf] at h <;> exact h.symm
  · intro r
    cases r with
    | json j => exact .inl ⟨j, rfl⟩
    | transportFailure => exact .inr rfl
    | noText => exact .inr rfl
    | badJson => exact .inr rfl

/-- C6, witness for the amended theorem at a concrete failing reply. -/
theorem adapter_error_boundary_w :
    analyzeErrorMessage = analyzeErrorMessage ∧
    generateImage (.failure "boom") = .error "boom" :=
  ⟨adapter_error_boundary.1 .noText analyzeErrorMessage rfl,
   adapter_error_boundary.2.2.1 "boom"⟩

/-- C10.  Both image adapters return the first inline-data part in
part order (every part before it lacking inline data), and the
returned data URI always carries the PNG base64 header, whatever the
MIME type recorded in the inline data and, for `editImage`, whatever
the MIME type of the source image. -/
theorem image_adapters_first_png :
    pngHeader = "data:image/png;base64," ∧
    ∀ (pre post : List Part) (p : Part) (d : InlineData),
      (∀ q ∈ pre, q.inlineData = none) → p.inlineData = some d →
      generateImage (.success (some (pre ++ p :: post))) = .ok (pngHeader ++ d.data) ∧
      ∀ srcMime, editImage srcMime (.success (some (pre ++ p :: post))) =
        .ok (pngHeader ++ d.data) := by
  refine ⟨rfl, ?_⟩
  intro pre post p d hpre hp
  have hfirst : firstInline (pre ++ p :: post) = some d := by
    induction pre with
    | nil => simp [firstInline, hp]
    | cons q qs ih =>
      have hq := hpre q (List.mem_cons_self q qs)
      simp only [List.cons_append, firstInline, hq]
      exact ih fun x hx => hpre x (List.mem_cons_of_mem q hx)
  exact ⟨by simp [generateImage, hfirst], fun srcMime => by simp [editImage, hfirst]⟩

/-- C10, witness: a JPEG inline payload behind a text part comes back
first and PNG-labelled even for a JPEG source image. -/
theorem image_adapters_first_png_w :
    generateImage
      (.success (some ([⟨some "note", none⟩] ++
        ⟨none, some ⟨"image/jpeg", "QUJD"⟩⟩ :: [⟨none, some ⟨"image/gif", "WFla"⟩⟩]))) =
      .ok (pngHeader ++ "QUJD") ∧
    editImage "image/jpeg"
      (.success (some ([⟨some "note", none⟩] ++
        ⟨none, some ⟨"image/jpeg", "QUJD"⟩⟩ :: [⟨none, some ⟨"image/gif", "WFla"⟩⟩]))) =
      .ok (pngHeader ++ "QUJD") := by
  have h := image_adapters_first_png.2 [⟨some "note", none⟩]
    [⟨none, some ⟨"image/gif", "WFla"⟩⟩] ⟨none, some ⟨"image/jpeg", "QUJD"⟩⟩
    ⟨"image/jpeg", "QUJD"⟩ (by decide) rfl
  exact ⟨h.1, h.2 "image/jpeg"⟩

/-- Helper: filtering a check list by FAIL, WARN and PASS in turn and
concatenating the groups permutes the original list. -/
theorem checks_filter_perm (l : List CheckItem) :
    ((l.filter fun c => c.status = CheckStatus.FAIL) ++
     (l.filter fun c => c.status = CheckStatus.WARN) ++
     (l.filter fun c => c.status = CheckStatus.PASS)).Perm l := by
  induction l with
  | nil => simp
  | cons c cs ih =>
    cases h : c.status with
    | FAIL =>
      simpa [List.filter_cons, h] using ih.cons c
    | WARN =>
      simp only [List.filter_cons, h, decide_eq_true_eq, reduceCtorEq, if_false, if_true,
        decide_True]
      refine List.Perm.trans (List.Perm.append_right _ List.perm_middle) ?_
      exact ih.cons c
    | PASS =>
      simp only [List.filter_cons, h, decide_eq_true_eq, reduceCtorEq, if_false, if_true,
        decide_True]
      refine List.Perm.trans List.perm_middle ?_
      exact ih.cons c

/-- C7.  The dashboard groups are an order-preserving partition of the
report's checks: each status group is a subsequence of `report.checks`
(so within a group the relative order is exactly the delivered order),
membership in a group is exactly having that status, and the FAIL,
WARN and PASS groups displayed in section order are a permutation of
the whole checks list. -/
theorem checks_grouping_partition (report : PreflightReport) :
    (∀ s, (checksByStatus report s).Sublist report.checks) ∧
    (∀ s c, c ∈ checksByStatus report s ↔ c ∈ report.checks ∧ c.status = s) ∧
    ((checksByStatus report .FAIL ++ checksByStatus report .WARN ++
      checksByStatus report .PASS).Perm report.checks) := by
  refine ⟨fun s => List.filter_sublist report.checks, ?_, ?_⟩
  · intro s c
    simp [checksByStatus, List.mem_filter]
  · simpa [checksByStatus] using checks_filter_perm report.checks

/-- A concrete report for witnesses: scenario 1 with one extra check
per status. -/
def sampleReport : PreflightReport :=
  { overallScore := 82
    summary := "RGB imagery found."
    finalVerdict := "NEEDS_REVIEW"
    checks :=
      [{ category := .COLOR, status := .FAIL, title := "RGB images detected",
         description := "Images appear to be RGB.", location := none,
         visualZone := some "CENTER" },
       { category := .CONTENT, status := .WARN, title := "Possible typo",
         description := "A misspelled word.", location := some "Page 1 footer",
         visualZone := some "BOTTOM_LEFT" },
       { category := .LAYOUT, status := .PASS, title := "Bleed present",
         description := "Artwork extends past trim.", location := none,
         visualZone := none }]
    specs :=
      { pageCount := 2, detectedDimensions := "8.5x11 in",
        colorProfileEstimate := "RGB Detected", hasCropMarks := false } }

/-- C7, witness: the partition facts evaluated on the concrete report. -/
theorem checks_grouping_partition_w :
    (checksByStatus sampleReport .FAIL ++ checksByStatus sampleReport .WARN ++
      checksByStatus sampleReport .PASS).Perm sampleReport.checks :=
  (checks_grouping_partition sampleReport).2.2

/-- C8.  Every report payload satisfying the spec schema is accepted
and returned to the caller unchanged: the exposed Report is exactly
the input payload, field for field; no normalization and no score
recomputation takes place. -/
theorem valid_report_roundtrip (j : Json) (h : validReportJson j = true) :
    analyzePdf (.json j) = .ok j :=
  rfl

/-- C8, witness at the scenario 1 payload. -/
theorem valid_report_roundtrip_w :
    validReportJson sampleReportJson = true ∧
    analyzePdf (.json sampleReportJson) = .ok sampleReportJson :=
  ⟨rfl, valid_report_roundtrip sampleReportJson rfl⟩

/-- The generator invariant: the number of outstanding calls is the
indicator of `isGenerating`. -/
def GenInv (sn : GenState × Nat) : Prop :=
  sn.2 = if sn.1.isGenerating then 1 else 0

/-- The editor invariant: the number of outstanding calls is the
indicator of `isProcessing`. -/
def EditInv (sn : EditState × Nat) : Prop :=
  sn.2 = if sn.1.isProcessing then 1 else 0

/-- The preflight invariant: the number of outstanding calls is the
indicator of `isAnalyzing`, and while analyzing the upload surface is
not rendered. -/
def AppInv (sn : AppState × Nat) : Prop :=
  sn.2 = (if sn.1.isAnalyzing then 1 else 0) ∧
  (sn.1.isAnalyzing = true → uploadVisible sn.1 = false)

/-- Helper: one generator step preserves the invariant. -/
theorem trackGen_inv (sn : GenState × Nat) (e : GenEvent) (h : GenInv sn) :
    GenInv (trackGen sn e) := by
  obtain ⟨s, n⟩ := sn
  simp only [GenInv] at h
  have hn : n ≤ 1 := by rw [h]; split <;> omega
  cases e with
  | setPrompt p =>
    simpa only [GenInv, trackGen, genStep, GenEvent.isCompletion, if_false,
      Bool.false_eq_true, Nat.sub_zero, Nat.add_zero] using h
  | clickGenerate =>
    by_cases hg : generateEnabled s = true
    · have hs : s.isGenerating = false := by
        have := hg
        simp only [generateEnabled, Bool.and_eq_true, Bool.not_eq_true'] at this
        exact this.1
      have h0 : n = 0 := by rw [h, hs]; rfl
      simp [GenInv, trackGen, genStep, GenEvent.isCompletion, hg, h0]
    · simp only [Bool.not_eq_true] at hg
      simpa only [GenInv, trackGen, genStep, GenEvent.isCompletion, hg, if_false,
        Bool.false_eq_true, Nat.sub_zero, Nat.add_zero] using h
  | complete r =>
    cases r <;>
      (simp only [GenInv, trackGen, genStep, GenEvent.isCompletion, if_true,
        Bool.false_eq_true, if_false, Nat.add_zero]
       omega)

/-- Helper: one editor step preserves the invariant. -/
theorem trackEdit_inv (sn : EditState × Nat) (e : EditEvent) (h : EditInv sn) :
    EditInv (trackEdit sn e) := by
  obtain ⟨s, n⟩ := sn
  simp only [EditInv] at h
  have hn : n ≤ 1 := by rw [h]; split <;> omega
  cases e with
  | selectImage mime =>
    by_cases hm : isImageMime mime = true
    · simpa only [EditInv, trackEdit, editStep, EditEvent.isCompletion, hm, if_true,
        if_false, Bool.false_eq_true, Nat.sub_zero, Nat.add_zero] using h
    · simp only [Bool.not_eq_true] at hm
      simpa only [EditInv, trackEdit, editStep, EditEvent.isCompletion, hm, if_true,
        if_false, Bool.false_eq_true, Nat.sub_zero, Nat.add_zero] using h
  | setPrompt p =>
    simpa only [EditInv, trackEdit, editStep, EditEvent.isCompletion, if_false,
      Bool.false_eq_true, Nat.sub_zero, Nat.add_zero] using h
  | clickEdit =>
    by_cases hg : editEnabled s = true
    · have hs : s.isProcessing = false := by
        have := hg
        simp only [editEnabled, Bool.and_eq_true, Bool.not_eq_true'] at this
        exact this.1.2
      have h0 : n = 0 := by rw [h, hs]; rfl
      simp [EditInv, trackEdit, editStep, EditEvent.isCompletion, hg, h0]
    · simp only [Bool.not_eq_true] at hg
      simpa only [EditInv, trackEdit, editStep, EditEvent.isCompletion, hg, if_false,
        Bool.false_eq_true, Nat.sub_zero, Nat.add_zero] using h
  | reset =>
    simpa only [EditInv, trackEdit, editStep, EditEvent.isCompletion, if_false,
      Bool.false_eq_true, Nat.sub_zero, Nat.add_zero] using h
  | complete r =>
    cases r <;>
      (simp only [EditInv, trackEdit, editStep, EditEvent.isCompletion, if_true,
        Bool.false_eq_true, if_false, Nat.add_zero]
       omega)

/-- Helper: one preflight step preserves the invariant. -/
theorem trackApp_inv (sn : AppState × Nat) (e : AppEvent) (h : AppInv sn) :
    AppInv (trackApp sn e) := by
  obtain ⟨s, n⟩ := sn
  obtain ⟨h1, h2⟩ := h
  simp only at h1 h2
  have hn : n ≤ 1 := by rw [h1]; split <;> omega
  cases e with
  | selectFile f =>
    by_cases hv : uploadVisible s = true
    · have hs : s.isAnalyzing = false := by
        cases ha : s.isAnalyzing
        · rfl
        · exact absurd hv (by simp [h2 ha])
      have h0 : n = 0 := by rw [h1, hs]; rfl
      have hstep : appStep s (.selectFile f) =
          ({ file := some f, isAnalyzing := true, report := none, error := none }, true) := by
        simp [appStep, hv]
      constructor
      · simp [trackApp, AppEvent.isCompletion, hstep, h0]
      · intro _
        simp [trackApp, hstep, uploadVisible]
    · simp only [Bool.not_eq_true] at hv
      have hstep : appStep s (.selectFile f) = (s, false) := by
        simp [appStep, hv]
      exact ⟨by simpa only [trackApp, AppEvent.isCompletion, hstep, if_false,
               Bool.false_eq_true, Nat.sub_zero, Nat.add_zero] using h1,
             by simpa only [trackApp, hstep] using h2⟩
  | analysisDone r =>
    have hdone : ((trackApp (s, n) (.analysisDone r)).1.isAnalyzing = false) ∧
        (trackApp (s, n) (.analysisDone r)).2 = n - 1 := by
      cases r <;> simp [trackApp, appStep, AppEvent.isCompletion]
    refine ⟨?_, fun hcontra => absurd hdone.1 (by simp [hcontra])⟩
    rw [hdone.1, hdone.2]
    have : n - 1 = 0 := by omega
    simp [this]
  | reset =>
    by_cases hv : resetVisible s = true
    · have hs : s.isAnalyzing = false := by
        cases ha : s.isAnalyzing
        · rfl
        · simp [resetVisible, ha] at hv
      have hstep : appStep s .reset =
          ({ s with file := none, report := none, error := none }, false) := by
        simp [appStep, hv]
      exact ⟨by simp [trackApp, AppEvent.isCompletion, hstep, h1, hs],
             by simp [trackApp, hstep, hs]⟩
    · simp only [Bool.not_eq_true] at hv
      have hstep : appStep s .reset = (s, false) := by
        simp [appStep, hv]
      exact ⟨by simpa only [trackApp, AppEvent.isCompletion, hstep, if_false,
               Bool.false_eq_true, Nat.sub_zero, Nat.add_zero] using h1,
             by simpa only [trackApp, hstep] using h2⟩

/-- Helper: the generator invariant holds along every trace. -/
theorem genRun_inv (trace : List GenEvent) : GenInv (genRun trace) := by
  have main : ∀ sn, GenInv sn → GenInv (trace.foldl trackGen sn) := by
    induction trace with
    | nil => exact fun sn h => h
    | cons e t ih => exact fun sn h => ih _ (trackGen_inv sn e h)
  exact main (genInit, 0) rfl

/-- Helper: the editor invariant holds along every trace. -/
theorem editRun_inv (trace : List EditEvent) : EditInv (editRun trace) := by
  have main : ∀ sn, EditInv sn → EditInv (trace.foldl trackEdit sn) := by
    induction trace with
    | nil => exact fun sn h => h
    | cons e t ih => exact fun sn h => ih _ (trackEdit_inv sn e h)
  exact main (editInit, 0) rfl

/-- Helper: the preflight invariant holds along every trace. -/
theorem appRun_inv (trace : List AppEvent) : AppInv (appRun trace) := by
  have main : ∀ sn, AppInv sn → AppInv (trace.foldl trackApp sn) := by
    induction trace with
    | nil => exact fun sn h => h
    | cons e t ih => exact fun sn h => ih _ (trackApp_inv sn e h)
  exact main (appInit, 0) ⟨rfl, by simp [appInit]⟩

/-- C9.  On each of the three surfaces, at most one remote call is
outstanding after any event trace (the trigger is disabled, or the
upload surface unmounted, while a call is in flight), and a remote
call starts only on an explicit user invocation of an enabled trigger:
no completion event, a failure included, ever starts a call. -/
theorem at_most_one_call_per_surface :
    (∀ trace : List GenEvent, (genRun trace).2 ≤ 1) ∧
    (∀ trace : List EditEvent, (editRun trace).2 ≤ 1) ∧
    (∀ trace : List AppEvent, (appRun trace).2 ≤ 1) ∧
    (∀ (s : GenState) (e : GenEvent), (genStep s e).2 = true →
      e = GenEvent.clickGenerate ∧ generateEnabled s = true) ∧
    (∀ (s : EditState) (e : EditEvent), (editStep s e).2 = true →
      e = EditEvent.clickEdit ∧ editEnabled s = true) ∧
    (∀ (s : AppState) (e : AppEvent), (appStep s e).2 = true →
      (∃ f, e = AppEvent.selectFile f) ∧ uploadVisible s = true) := by
  refine ⟨?_, ?_, ?_, ?_, ?_, ?_⟩
  · intro trace
    rw [genRun_inv trace]
    split <;> omega
  · intro trace
    rw [editRun_inv trace]
    split <;> omega
  · intro trace
    rw [(appRun_inv trace).1]
    split <;> omega
  · intro s e h
    cases e with
    | setPrompt p => simp [genStep] at h
    | clickGenerate =>
      by_cases hg : generateEnabled s = true
      · exact ⟨rfl, hg⟩
      · simp only [Bool.not_eq_true] at hg
        simp [genStep, hg] at h
    | complete r => cases r <;> simp [genStep] at h
  · intro s e h
    cases e with
    | selectImage mime =>
      by_cases hm : isImageMime mime = true
      · simp [editStep, hm] at h
      · simp only [Bool.not_eq_true] at hm
        simp [editStep, hm] at h
    | setPrompt p => simp [editStep] at h
    | clickEdit =>
      by_cases hg : editEnabled s = true
      · exact ⟨rfl, hg⟩
      · simp only [Bool.not_eq_true] at hg
        simp [editStep, hg] at h
    | reset => simp [editStep] at h
    | complete r => cases r <;> simp [editStep] at h
  · intro s e h
    cases e with
    | selectFile f =>
      by_cases hv : uploadVisible s = true
      · exact ⟨⟨f, rfl⟩, hv⟩
      · simp only [Bool.not_eq_true] at hv
        simp [appStep, hv] at h
    | analysisDone r => cases r <;> simp [appStep] at h
    | reset =>
      by_cases hv : resetVisible s = true <;> simp [appStep, hv] at h

/-- C9, witness: the bound after a concrete trace that clicks during a
pending call, and the start conditions of a concrete accepted click. -/
theorem at_most_one_call_per_surface_w :
    (genRun [.setPrompt "a poster", .clickGenerate, .clickGenerate]).2 ≤ 1 ∧
    ((appStep appInit (.selectFile "doc.pdf")).2 = true →
      (∃ f, AppEvent.selectFile "doc.pdf" = AppEvent.selectFile f) ∧
      uploadVisible appInit = true) :=
  ⟨at_most_one_call_per_surface.1 [.setPrompt "a poster", .clickGenerate, .clickGenerate],
   at_most_one_call_per_surface.2.2.2.2.2 appInit (.selectFile "doc.pdf")⟩

end Preflight
